import Mathlib

/-!
# Verification of the SAF `panner` example core

Shallow embedding of the frequency-dependent VBAP panner described by
`src/examples/src/panner/panner_internal.h`.  The header under `src/` defines
the data model (the `_panner` structure, its flags and buffer shapes) and the
compile-time frame constants; the algorithmic bodies (`panner.c`,
`saf_vbap.c`, …) are not part of `src/`, so those operations are modelled
from the specification, as marked in the individual doc comments.
-/

namespace Panner

/- ====================================================================== -/
/- Compile-time constants from `panner_internal.h`                         -/
/- ====================================================================== -/

/-- `HOP_SIZE ( 128 )` — STFT hop size (`panner_internal.h`, line 67). -/
def HOP_SIZE : Nat := 128

/-- `HYBRID_BANDS ( HOP_SIZE + 5 )` — number of frequency bands
(`panner_internal.h`, line 68). -/
def HYBRID_BANDS : Nat := HOP_SIZE + 5

/-- Default `PANNER_FRAME_SIZE ( 128 )` used when no global `FRAME_SIZE`
override is given (`panner_internal.h`, line 64). -/
def PANNER_FRAME_SIZE_default : Nat := 128

/-- `TIME_SLOTS ( PANNER_FRAME_SIZE / HOP_SIZE )` — number of STFT time slots
per block, as a function of the configured frame size
(`panner_internal.h`, line 69). -/
def TIME_SLOTS (frameSize : Nat) : Nat := frameSize / HOP_SIZE

/-- The compile-time check
`#if (PANNER_FRAME_SIZE % HOP_SIZE != 0) # error ...`
(`panner_internal.h`, lines 72–74): a frame size is accepted iff it is an
integer multiple of the hop size. -/
def frameSizeAccepted (frameSize : Nat) : Bool := frameSize % HOP_SIZE == 0

/-- Modelled from the spec: the fixed capacity maximum `MAX_NUM_INPUTS`
(defined in SAF's `_common.h`, which is not under `src/`); only its role as a
fixed compile-time bound matters here. -/
def MAX_NUM_INPUTS : Nat := 64

/-- Modelled from the spec: the fixed capacity maximum `MAX_NUM_OUTPUTS`
(defined in SAF's `_common.h`, which is not under `src/`). -/
def MAX_NUM_OUTPUTS : Nat := 64

/- ====================================================================== -/
/- Rational 3-vectors and the VBAP gain-table builder                      -/
/- ====================================================================== -/

/-- A Cartesian direction vector (rational coordinates in the embedding). -/
structure Vec3 where
  x : ℚ
  y : ℚ
  z : ℚ
deriving DecidableEq, Repr

/-- Determinant of the 3×3 matrix whose rows are `a`, `b`, `c`. -/
def det3 (a b c : Vec3) : ℚ :=
  a.x * (b.y * c.z - b.z * c.y)
  - a.y * (b.x * c.z - b.z * c.x)
  + a.z * (b.x * c.y - b.y * c.x)

/-- Modelled from the spec: the barycentric-style VBAP gain contributions of
a loudspeaker triangle `(a,b,c)` for a grid direction `u`, i.e. the solution
`(g₁,g₂,g₃)` of `g₁·a + g₂·b + g₃·c = u` by Cramer's rule (`panner.c` /
`saf_vbap.c` are not under `src/`). -/
def triGains (a b c u : Vec3) : ℚ × ℚ × ℚ :=
  let d := det3 a b c
  (det3 u b c / d, det3 a u c / d, det3 a b u / d)

/-- Modelled from the spec: a triangle `(a,b,c)` encloses direction `u` when
the inversion is well defined and all three gain contributions are
non-negative with a strictly positive total. -/
def encloses (a b c u : Vec3) : Bool :=
  let d := det3 a b c
  let g := triGains a b c u
  decide (d ≠ 0 ∧ 0 ≤ g.1 ∧ 0 ≤ g.2.1 ∧ 0 ≤ g.2.2 ∧ 0 < g.1 + g.2.1 + g.2.2)

/-- An index triple into the loudspeaker list (one hull triangle). -/
structure Tri where
  i : Nat
  j : Nat
  k : Nat
deriving DecidableEq, Repr

/-- A triangle is admissible for a layout of `n` loudspeakers when its three
indices are distinct and in range. -/
def Tri.ok (t : Tri) (n : Nat) : Bool :=
  decide (t.i < n ∧ t.j < n ∧ t.k < n ∧ t.i ≠ t.j ∧ t.i ≠ t.k ∧ t.j ≠ t.k)

/-- Look up the three loudspeaker direction vectors of a triangle. -/
def Tri.dirs (t : Tri) (ls : List Vec3) : Option (Vec3 × Vec3 × Vec3) :=
  match ls[t.i]?, ls[t.j]?, ls[t.k]? with
  | some a, some b, some c => some (a, b, c)
  | _, _, _ => none

/-- The scattered, amplitude-normalised gain row produced from triangle `t`
whose member gains are `g` (normalised by the total `s`): the three member
loudspeakers receive their share, all others zero. -/
def scatterRow (n : Nat) (t : Tri) (g : ℚ × ℚ × ℚ) : List ℚ :=
  let s := g.1 + g.2.1 + g.2.2
  List.ofFn (n := n) fun m =>
    (if m.val = t.i then g.1 / s else 0)
    + (if m.val = t.j then g.2.1 / s else 0)
    + (if m.val = t.k then g.2.2 / s else 0)

/-- Modelled from the spec: attempt to pan direction `u` with one candidate
triangle: succeeds iff the triangle is admissible and encloses `u`. -/
def tryTri (ls : List Vec3) (t : Tri) (u : Vec3) : Option (List ℚ) :=
  (t.dirs ls).bind fun abc =>
    if t.ok ls.length && encloses abc.1 abc.2.1 abc.2.2 u then
      some (scatterRow ls.length t (triGains abc.1 abc.2.1 abc.2.2 u))
    else none

/-- Modelled from the spec: the gain vector of one grid cell — locate the
first admissible enclosing triangle, normalise its three gain contributions
to unit amplitude (sum 1), give every other loudspeaker zero gain. -/
def cellGains (ls : List Vec3) (tris : List Tri) (u : Vec3) : Option (List ℚ) :=
  tris.findSome? fun t => tryTri ls t u

/-- Modelled from the spec: 3-D layout validity — at least three loudspeaker
directions with some linearly independent (non-collinear, non-coplanar)
triple, so that a spherical triangulation exists. -/
def layoutOk3D (ls : List Vec3) : Prop :=
  3 ≤ ls.length ∧ ∃ a ∈ ls, ∃ b ∈ ls, ∃ c ∈ ls, det3 a b c ≠ 0

/-- The builder's loop over the sampled grid: one gain row per grid cell,
failing as a whole when any cell fails. -/
def tableLoop (ls : List Vec3) (tris : List Tri) : List Vec3 → Option (List (List ℚ))
  | [] => some []
  | u :: rest =>
    match cellGains ls tris u, tableLoop ls tris rest with
    | some row, some rows => some (row :: rows)
    | _, _ => none

/-- Modelled from the spec: the 3-D VBAP gain-table builder (`vbap_gtable`
in the `_panner` structure; the builder's body lives in `saf_vbap.c`, not
under `src/`).  Given the loudspeaker directions, the hull triangulation
(produced by the triangulation library routine, treated per the spec as an
external collaborator) and the list of sampled grid directions, it produces
one gain vector per grid cell, failing when some cell has no enclosing
triangle. -/
def vbap_gtable3D (ls : List Vec3) (tris : List Tri) (grid : List Vec3) :
    Option (List (List ℚ)) :=
  tableLoop ls tris grid

/-- The two virtual top/bottom loudspeakers added in forced-3-D mode
(`FORCE_3D_LAYOUT` is defined unconditionally in `panner_internal.h`,
line 59). -/
def virtualTop : Vec3 := ⟨0, 0, 1⟩

/-- See `virtualTop`. -/
def virtualBottom : Vec3 := ⟨0, 0, -1⟩

/-- Modelled from the spec: forced-3-D handling of a 2-D ring layout — the
ring triangulation (ordered pairs of adjacent azimuths) is widened to 3-D
triangles by pairing each ring edge with the virtual top and bottom
loudspeakers. -/
def ringTris (n : Nat) (pairs : List (Nat × Nat)) : List Tri :=
  pairs.flatMap fun p => [⟨p.1, p.2, n⟩, ⟨p.1, p.2, n + 1⟩]

/-- Modelled from the spec: the gain-table builder in forced-3-D mode for a
2-D layout — append the two virtual loudspeakers, run the 3-D builder, then
drop the two virtual entries of every cell (they carry zero gain for in-plane
grid directions). -/
def vbap_gtable2D (ls : List Vec3) (pairs : List (Nat × Nat)) (grid : List Vec3) :
    Option (List (List ℚ)) :=
  (vbap_gtable3D (ls ++ [virtualTop, virtualBottom]) (ringTris ls.length pairs) grid).map
    (List.map (List.take ls.length))

/- ====================================================================== -/
/- Gain-table cell invariants (claim C1 machinery)                         -/
/- ====================================================================== -/

theorem sum_indicator {n : Nat} (i : Nat) (x : ℚ) (h : i < n) :
    (∑ m : Fin n, if m.val = i then x else 0) = x := by
  rw [Finset.sum_eq_single (⟨i, h⟩ : Fin n)]
  · simp
  · intro b _ hb
    rw [if_neg]
    intro hbv
    exact hb (Fin.ext hbv)
  · intro hb
    exact absurd (Finset.mem_univ _) hb

theorem scatterRow_length (n : Nat) (t : Tri) (g : ℚ × ℚ × ℚ) :
    (scatterRow n t g).length = n := by
  simp [scatterRow]

theorem scatterRow_nonneg (n : Nat) (t : Tri) (g : ℚ × ℚ × ℚ)
    (h1 : 0 ≤ g.1) (h2 : 0 ≤ g.2.1) (h3 : 0 ≤ g.2.2)
    (hs : 0 < g.1 + g.2.1 + g.2.2) : ∀ q ∈ scatterRow n t g, 0 ≤ q := by
  intro q hq
  have hs' : (0 : ℚ) ≤ g.1 + g.2.1 + g.2.2 := le_of_lt hs
  simp only [scatterRow, List.mem_ofFn] at hq
  obtain ⟨m, rfl⟩ := hq
  refine add_nonneg (add_nonneg ?_ ?_) ?_
  · split
    · exact div_nonneg h1 hs'
    · exact le_refl 0
  · split
    · exact div_nonneg h2 hs'
    · exact le_refl 0
  · split
    · exact div_nonneg h3 hs'
    · exact le_refl 0

theorem scatterRow_sum {n : Nat} (t : Tri) (g : ℚ × ℚ × ℚ)
    (ht : t.ok n = true) (hs : g.1 + g.2.1 + g.2.2 ≠ 0) :
    (scatterRow n t g).sum = 1 := by
  simp only [Tri.ok, decide_eq_true_eq] at ht
  obtain ⟨hi, hj, hk, _, _, _⟩ := ht
  simp only [scatterRow]
  rw [List.sum_ofFn, Finset.sum_add_distrib, Finset.sum_add_distrib,
    sum_indicator t.i _ hi, sum_indicator t.j _ hj, sum_indicator t.k _ hk,
    div_add_div_same, div_add_div_same, div_self hs]

theorem tryTri_eq_some {ls : List Vec3} {t : Tri} {u : Vec3} {row : List ℚ}
    (h : tryTri ls t u = some row) :
    ∃ a b c, t.dirs ls = some (a, b, c) ∧ t.ok ls.length = true ∧
      encloses a b c u = true ∧ row = scatterRow ls.length t (triGains a b c u) := by
  unfold tryTri at h
  cases hd : t.dirs ls with
  | none => rw [hd] at h; simp at h
  | some abc =>
    obtain ⟨a, b, c⟩ := abc
    rw [hd] at h
    simp only [Option.some_bind] at h
    by_cases hok : (t.ok ls.length && encloses a b c u) = true
    · rw [if_pos hok] at h
      rw [Bool.and_eq_true] at hok
      exact ⟨a, b, c, rfl, hok.1, hok.2, (Option.some.inj h).symm⟩
    · rw [if_neg hok] at h
      simp at h

theorem cellGains_spec {ls : List Vec3} {tris : List Tri} {u : Vec3} {row : List ℚ}
    (h : cellGains ls tris u = some row) :
    row.length = ls.length ∧ (∀ q ∈ row, 0 ≤ q) ∧ row.sum = 1 := by
  obtain ⟨t, _, ht⟩ := List.exists_of_findSome?_eq_some h
  obtain ⟨a, b, c, _, hok, henc, rfl⟩ := tryTri_eq_some ht
  simp only [encloses, decide_eq_true_eq] at henc
  obtain ⟨_, h1, h2, h3, hs⟩ := henc
  exact ⟨scatterRow_length _ _ _, scatterRow_nonneg _ _ _ h1 h2 h3 hs,
    scatterRow_sum _ _ hok (ne_of_gt hs)⟩

theorem cellGains_isSome {ls : List Vec3} {tris : List Tri} {u : Vec3}
    (h : ∃ t ∈ tris, ∃ a b c, t.dirs ls = some (a, b, c) ∧
      t.ok ls.length = true ∧ encloses a b c u = true) :
    ∃ row, cellGains ls tris u = some row := by
  obtain ⟨t, htmem, a, b, c, hd, hok, henc⟩ := h
  cases hrow : cellGains ls tris u with
  | some row => exact ⟨row, rfl⟩
  | none =>
    exfalso
    unfold cellGains at hrow
    rw [List.findSome?_eq_none_iff] at hrow
    have := hrow t htmem
    unfold tryTri at this
    rw [hd] at this
    simp [hok, henc] at this

theorem tableLoop_mem {ls : List Vec3} {tris : List Tri} :
    ∀ {grid : List Vec3} {rows : List (List ℚ)},
      tableLoop ls tris grid = some rows →
      ∀ row ∈ rows, ∃ u ∈ grid, cellGains ls tris u = some row := by
  intro grid
  induction grid with
  | nil =>
    intro rows h row hr
    simp only [tableLoop, Option.some.injEq] at h
    subst h
    simp at hr
  | cons u rest ih =>
    intro rows h row hr
    cases hc : cellGains ls tris u with
    | none => simp only [tableLoop, hc] at h; exact Option.noConfusion h
    | some r =>
      cases hrest : tableLoop ls tris rest with
      | none => simp only [tableLoop, hc, hrest] at h; exact Option.noConfusion h
      | some rs =>
        simp only [tableLoop, hc, hrest, Option.some.injEq] at h
        subst h
        rcases List.mem_cons.mp hr with hr | hr
        · exact ⟨u, List.mem_cons_self u rest, hr ▸ hc⟩
        · obtain ⟨v, hv, hcv⟩ := ih hrest row hr
          exact ⟨v, List.mem_cons_of_mem u hv, hcv⟩

theorem tableLoop_isSome {ls : List Vec3} {tris : List Tri} :
    ∀ {grid : List Vec3},
      (∀ u ∈ grid, ∃ row, cellGains ls tris u = some row) →
      ∃ rows, tableLoop ls tris grid = some rows := by
  intro grid
  induction grid with
  | nil => intro _; exact ⟨[], rfl⟩
  | cons u rest ih =>
    intro h
    obtain ⟨row, hrow⟩ := h u (List.mem_cons_self u rest)
    obtain ⟨rows, hrows⟩ := ih fun v hv => h v (List.mem_cons_of_mem u hv)
    exact ⟨row :: rows, by simp only [tableLoop, hrow, hrows]⟩

theorem Tri.dirs_eq_some {t : Tri} {ls : List Vec3} {a b c : Vec3}
    (h : t.dirs ls = some (a, b, c)) :
    ls[t.i]? = some a ∧ ls[t.j]? = some b ∧ ls[t.k]? = some c := by
  unfold Tri.dirs at h
  split at h
  · rename_i a' b' c' h1 h2 h3
    simp only [Option.some.injEq, Prod.mk.injEq] at h
    obtain ⟨rfl, rfl, rfl⟩ := h
    exact ⟨h1, h2, h3⟩
  · exact Option.noConfusion h

theorem mem_ringTris {n : Nat} {pairs : List (Nat × Nat)} {t : Tri}
    (h : t ∈ ringTris n pairs) :
    ∃ p ∈ pairs, t.i = p.1 ∧ t.j = p.2 ∧ (t.k = n ∨ t.k = n + 1) := by
  simp only [ringTris, List.mem_flatMap, List.mem_cons, List.mem_singleton,
    List.not_mem_nil, or_false] at h
  obtain ⟨p, hp, hmem⟩ := h
  rcases hmem with rfl | rfl
  · exact ⟨p, hp, rfl, rfl, Or.inl rfl⟩
  · exact ⟨p, hp, rfl, rfl, Or.inr rfl⟩

theorem det3_planar {a b u : Vec3} (ha : a.z = 0) (hb : b.z = 0) (hu : u.z = 0) :
    det3 a b u = 0 := by
  simp [det3, ha, hb, hu]

theorem scatterRow_take {n : Nat} (t : Tri) (g : ℚ × ℚ × ℚ)
    (hi : t.i < n) (hj : t.j < n) (hk : n ≤ t.k)
    (hg3 : g.2.2 = 0) (h1 : 0 ≤ g.1) (h2 : 0 ≤ g.2.1)
    (hs : 0 < g.1 + g.2.1 + g.2.2) :
    ((scatterRow (n + 2) t g).take n).length = n ∧
      (∀ q ∈ (scatterRow (n + 2) t g).take n, 0 ≤ q) ∧
      ((scatterRow (n + 2) t g).take n).sum = 1 := by
  refine ⟨?_, ?_, ?_⟩
  · simp only [List.length_take, scatterRow, List.length_ofFn]
    omega
  · intro q hq
    exact scatterRow_nonneg _ _ _ h1 h2 (le_of_eq hg3.symm) hs q (List.mem_of_mem_take hq)
  · simp only [scatterRow]
    rw [List.ofFn_add, List.take_left' (by simp), List.sum_ofFn]
    have step : ∀ m : Fin n,
        ((if ((Fin.castAdd 2 m) : Fin (n + 2)).val = t.i then
            g.1 / (g.1 + g.2.1 + g.2.2) else 0)
          + (if ((Fin.castAdd 2 m) : Fin (n + 2)).val = t.j then
            g.2.1 / (g.1 + g.2.1 + g.2.2) else 0)
          + (if ((Fin.castAdd 2 m) : Fin (n + 2)).val = t.k then
            g.2.2 / (g.1 + g.2.1 + g.2.2) else 0))
        = ((if m.val = t.i then g.1 / (g.1 + g.2.1 + g.2.2) else 0)
          + (if m.val = t.j then g.2.1 / (g.1 + g.2.1 + g.2.2) else 0)) := by
      intro m
      have hm : ((Fin.castAdd 2 m) : Fin (n + 2)).val = m.val := rfl
      have hkm : ¬ (m.val = t.k) := by have := m.isLt; omega
      rw [hm, if_neg hkm, add_zero]
    rw [Finset.sum_congr rfl fun m _ => step m, Finset.sum_add_distrib,
      sum_indicator t.i _ hi, sum_indicator t.j _ hj, div_add_div_same]
    rw [hg3, add_zero] at hs ⊢
    exact div_self (ne_of_gt hs)

theorem cellGains2D_spec {ls : List Vec3} {pairs : List (Nat × Nat)} {u : Vec3}
    {row : List ℚ}
    (hplane : ∀ v ∈ ls, v.z = 0) (hu : u.z = 0)
    (hpr : ∀ p ∈ pairs, p.1 < ls.length ∧ p.2 < ls.length)
    (h : cellGains (ls ++ [virtualTop, virtualBottom]) (ringTris ls.length pairs) u
      = some row) :
    (row.take ls.length).length = ls.length ∧ (∀ q ∈ row.take ls.length, 0 ≤ q) ∧
      (row.take ls.length).sum = 1 := by
  obtain ⟨t, htmem, ht⟩ := List.exists_of_findSome?_eq_some h
  obtain ⟨a, b, c, hd, hok, henc, rfl⟩ := tryTri_eq_some ht
  obtain ⟨p, hp, hti, htj, htk⟩ := mem_ringTris htmem
  obtain ⟨hp1, hp2⟩ := hpr p hp
  obtain ⟨hda, hdb, _⟩ := Tri.dirs_eq_some hd
  have hkge : ls.length ≤ t.k := by rcases htk with h' | h' <;> omega
  have hia : a ∈ ls := by
    rw [List.getElem?_append_left (by omega)] at hda
    exact List.getElem?_mem hda
  have hib : b ∈ ls := by
    rw [List.getElem?_append_left (by omega)] at hdb
    exact List.getElem?_mem hdb
  simp only [encloses, decide_eq_true_eq] at henc
  obtain ⟨_, h1, h2, _, hs⟩ := henc
  have hg3 : (triGains a b c u).2.2 = 0 := by
    simp only [triGains]
    rw [det3_planar (hplane a hia) (hplane b hib) hu, zero_div]
  have hlen : (ls ++ [virtualTop, virtualBottom]).length = ls.length + 2 := by simp
  rw [hlen]
  exact scatterRow_take t _ (by omega) (by omega) hkge hg3 h1 h2 hs

/-- A triangulation covers a grid when every sampled grid direction has an
admissible enclosing triangle (the contract of the spherical convex-hull
triangulation, which the spec treats as a library routine). -/
def covers (ls : List Vec3) (tris : List Tri) (grid : List Vec3) : Prop :=
  ∀ u ∈ grid, ∃ t ∈ tris, ∃ a b c, t.dirs ls = some (a, b, c) ∧
    t.ok ls.length = true ∧ encloses a b c u = true

/-- C1: for every loudspeaker layout with at least 3 non-collinear 3-D
directions (or at least 2 directions in forced-2-D mode, which
`FORCE_3D_LAYOUT` widens with two virtual top/bottom loudspeakers), building
the gain table succeeds, and every grid cell's gain vector has length equal
to the loudspeaker count, only non-negative entries, and sums to the
normalised value 1 (unit amplitude per cell, before the frequency-blend
step). -/
theorem vbap_gtable_cells_normalized
    (ls : List Vec3) (tris : List Tri) (grid : List Vec3)
    (ls2 : List Vec3) (pairs : List (Nat × Nat)) (ringGrid : List Vec3)
    (hlay : layoutOk3D ls)
    (hcov : covers ls tris grid)
    (hlay2 : 2 ≤ ls2.length)
    (hplane : ∀ v ∈ ls2, v.z = 0)
    (hring : ∀ u ∈ ringGrid, u.z = 0)
    (hpr : ∀ p ∈ pairs, p.1 < ls2.length ∧ p.2 < ls2.length)
    (hcov2 : covers (ls2 ++ [virtualTop, virtualBottom]) (ringTris ls2.length pairs)
      ringGrid) :
    (∃ table, vbap_gtable3D ls tris grid = some table ∧
      ∀ row ∈ table, row.length = ls.length ∧ (∀ q ∈ row, 0 ≤ q) ∧ row.sum = 1) ∧
    (∃ table2, vbap_gtable2D ls2 pairs ringGrid = some table2 ∧
      ∀ row ∈ table2, row.length = ls2.length ∧ (∀ q ∈ row, 0 ≤ q) ∧ row.sum = 1) := by
  constructor
  · obtain ⟨rows, hrows⟩ := tableLoop_isSome (fun u hu => cellGains_isSome (hcov u hu))
    refine ⟨rows, hrows, fun row hrow => ?_⟩
    obtain ⟨u, _, hcu⟩ := tableLoop_mem hrows row hrow
    exact cellGains_spec hcu
  · obtain ⟨rows, hrows⟩ := tableLoop_isSome (fun u hu => cellGains_isSome (hcov2 u hu))
    refine ⟨rows.map (List.take ls2.length), ?_, fun row hrow => ?_⟩
    · simp only [vbap_gtable2D, vbap_gtable3D, hrows, Option.map_some']
    · obtain ⟨row0, hrow0, rfl⟩ := List.mem_map.mp hrow
      obtain ⟨u, humem, hcu⟩ := tableLoop_mem hrows row0 hrow0
      exact cellGains2D_spec hplane (hring u humem) hpr hcu

/-- Witness for C1: a 4-loudspeaker 3-D layout (three coordinate axes plus
the bottom pole) with one hull triangle and a one-cell grid, and a
2-loudspeaker 2-D layout with its ring widened to forced 3-D. -/
theorem vbap_gtable_cells_normalized_witness :
    (∃ table, vbap_gtable3D [⟨1,0,0⟩, ⟨0,1,0⟩, ⟨0,0,1⟩, ⟨0,0,-1⟩] [⟨0,1,2⟩]
        [⟨1,1,1⟩] = some table ∧
      ∀ row ∈ table, row.length = 4 ∧ (∀ q ∈ row, 0 ≤ q) ∧ row.sum = 1) ∧
    (∃ table2, vbap_gtable2D [⟨1,0,0⟩, ⟨0,1,0⟩] [(0,1)] [⟨1,1,0⟩] = some table2 ∧
      ∀ row ∈ table2, row.length = 2 ∧ (∀ q ∈ row, 0 ≤ q) ∧ row.sum = 1) := by
  have henc1 : encloses ⟨1,0,0⟩ ⟨0,1,0⟩ ⟨0,0,1⟩ ⟨1,1,1⟩ = true := by
    simp only [encloses, det3, triGains, decide_eq_true_eq]
    norm_num
  have henc2 : encloses ⟨1,0,0⟩ ⟨0,1,0⟩ ⟨0,0,1⟩ ⟨1,1,0⟩ = true := by
    simp only [encloses, det3, triGains, decide_eq_true_eq]
    norm_num
  have hok1 : Tri.ok ⟨0,1,2⟩ 4 = true := by decide
  have hok2 : Tri.ok ⟨0,1,2⟩ 4 = true := by decide
  have h := vbap_gtable_cells_normalized
    [⟨1,0,0⟩, ⟨0,1,0⟩, ⟨0,0,1⟩, ⟨0,0,-1⟩] [⟨0,1,2⟩] [⟨1,1,1⟩]
    [⟨1,0,0⟩, ⟨0,1,0⟩] [(0,1)] [⟨1,1,0⟩]
    ⟨by norm_num, ⟨1,0,0⟩, by simp, ⟨0,1,0⟩, by simp, ⟨0,0,1⟩, by simp,
      by simp only [det3]; norm_num⟩
    (fun u hu => by
      rw [List.mem_singleton] at hu
      subst hu
      exact ⟨⟨0,1,2⟩, by simp, ⟨1,0,0⟩, ⟨0,1,0⟩, ⟨0,0,1⟩, rfl, hok1, henc1⟩)
    (by norm_num)
    (by rintro v hv; fin_cases hv <;> rfl)
    (by rintro u hu; fin_cases hu <;> rfl)
    (by rintro p hp; fin_cases hp <;> exact ⟨by norm_num, by norm_num⟩)
    (fun u hu => by
      rw [List.mem_singleton] at hu
      subst hu
      exact ⟨⟨0,1,2⟩, by simp [ringTris], ⟨1,0,0⟩, ⟨0,1,0⟩, ⟨0,0,1⟩, rfl, hok2, henc2⟩)
  simpa using h

/- ====================================================================== -/
/- The `_panner` state (from `panner_internal.h`) and the control path      -/
/- ====================================================================== -/

/-- The error taxonomy of the spec (§7). -/
inductive PannerError where
  | InvalidLayout
  | InvalidSource
  | CapacityExceeded
  | NotReady
deriving DecidableEq, Repr

/-- The rotation parameters (yaw/pitch/roll in degrees plus the three flip
flags), as stored in `_panner`. -/
structure RotCfg where
  yaw : ℚ
  pitch : ℚ
  roll : ℚ
  bFlipYaw : Bool
  bFlipPitch : Bool
  bFlipRoll : Bool
deriving DecidableEq, Repr

/-- The `_panner` structure (`panner_internal.h`, lines 84–138), restricted
to the fields the verified claims are about.  Scalars are rationals; a source
direction is `Option (ℚ × ℚ)` where `none` models a non-finite (NaN)
direction; `G_src` is stored here with the source index outermost
(`[source][band][loudspeaker]`; the header stores the same data as
`[band][source][loudspeaker]` — a pure transposition). -/
structure PannerData where
  vbapTableRes : Nat × Nat
  vbap_gtable : Option (List (List ℚ))
  G_src : List (List (List ℚ))
  recalc_gainsFLAG : List Bool
  recalc_M_rotFLAG : Bool
  reInitGainTables : Bool
  src_dirs_rot_deg : List (Option (ℚ × ℚ))
  new_nLoudpkrs : Nat
  new_nSources : Nat
  nSources : Nat
  src_dirs_deg : List (Option (ℚ × ℚ))
  DTT : ℚ
  spread_deg : ℚ
  nLoudpkrs : Nat
  loudpkrs_dirs_deg : List (ℚ × ℚ)
  rot : RotCfg
deriving DecidableEq, Repr

/-- Modelled from the spec: the degeneracy test applied to a requested
loudspeaker layout (the non-collinearity check lives in the external
triangulation routine, not under `src/`; the part expressible on the stored
degree pairs is the count of distinct directions: fewer than 3 distinct
directions in 3-D, fewer than 2 in 2-D, is degenerate). -/
def layoutDegenerate (nDims : Nat) (dirs : List (ℚ × ℚ)) : Bool :=
  if nDims == 2 then decide (dirs.dedup.length < 2)
  else decide (dirs.dedup.length < 3)

/-- Modelled from the spec: control-path setter for the number of sources —
an over-capacity request is rejected with `CapacityExceeded` at the request
point, leaving the state (in particular every flag) untouched; otherwise the
new count is staged in `new_nSources` and the per-source recalculation flags
are raised (`panner.c` is not under `src/`). -/
def panner_setNumSources (s : PannerData) (n : Nat) :
    PannerData × Option PannerError :=
  if MAX_NUM_INPUTS < n then (s, some .CapacityExceeded)
  else ({ s with new_nSources := n,
                 recalc_gainsFLAG := List.replicate MAX_NUM_INPUTS true }, none)

/-- Modelled from the spec: control-path setter for the loudspeaker layout
(count, directions and estimated dimensionality together, as a preset load
delivers them) — over-capacity and degenerate layouts are rejected with
`CapacityExceeded` / `InvalidLayout` before any flag is raised; otherwise the
layout is written, the new count staged in `new_nLoudpkrs`, and the
full-table flag `reInitGainTables` raised. -/
def panner_setLoudspeakerLayout (s : PannerData) (dirs : List (ℚ × ℚ))
    (nDims : Nat) : PannerData × Option PannerError :=
  if MAX_NUM_OUTPUTS < dirs.length then (s, some .CapacityExceeded)
  else if layoutDegenerate nDims dirs then (s, some .InvalidLayout)
  else ({ s with loudpkrs_dirs_deg := dirs,
                 new_nLoudpkrs := dirs.length,
                 reInitGainTables := true,
                 recalc_gainsFLAG := List.replicate MAX_NUM_INPUTS true }, none)

/-- Modelled from the spec and the `_panner` structure: setter for one
source direction.  The structure has no shadow field for directions —
`src_dirs_deg` is the single (atomic) user-parameter field, unlike the
counts which shadow `nSources`/`nLoudpkrs` with `new_nSources`/
`new_nLoudpkrs` — so the setter writes the current field directly and raises
that source's `recalc_gainsFLAG`. -/
def panner_setSourceDir (s : PannerData) (i : Nat) (d : ℚ × ℚ) : PannerData :=
  { s with src_dirs_deg := s.src_dirs_deg.set i (some d),
           recalc_gainsFLAG := s.recalc_gainsFLAG.set i true }

/-- Modelled from the spec: setter for the spread angle (single atomic
field `spread_deg`, all per-source flags raised). -/
def panner_setSpread (s : PannerData) (v : ℚ) : PannerData :=
  { s with spread_deg := v,
           recalc_gainsFLAG := List.replicate MAX_NUM_INPUTS true }

/-- Modelled from the spec: setter for the room coefficient (single atomic
field `DTT`, all per-source flags raised). -/
def panner_setDTT (s : PannerData) (v : ℚ) : PannerData :=
  { s with DTT := v,
           recalc_gainsFLAG := List.replicate MAX_NUM_INPUTS true }

/-- Modelled from the spec: setter for the rotation parameters (atomic
fields `yaw`/`pitch`/`roll` and flips; raises the rotation-matrix flag). -/
def panner_setRotation (s : PannerData) (r : RotCfg) : PannerData :=
  { s with rot := r, recalc_M_rotFLAG := true }

/-- Modelled from the spec: setter for the gain-table resolution (raises the
full-table flag). -/
def panner_setTableRes (s : PannerData) (res : Nat × Nat) : PannerData :=
  { s with vbapTableRes := res, reInitGainTables := true }

/-- Getter: current (applied) number of sources. -/
def panner_getNumSources (s : PannerData) : Nat := s.nSources

/-- Getter: current number of loudspeakers. -/
def panner_getNumLoudspeakers (s : PannerData) : Nat := s.nLoudpkrs

/-- Getter: a source direction, as stored in `src_dirs_deg`. -/
def panner_getSourceDir (s : PannerData) (i : Nat) : Option (Option (ℚ × ℚ)) :=
  s.src_dirs_deg[i]?

/-- Getter: spread angle. -/
def panner_getSpread (s : PannerData) : ℚ := s.spread_deg

/-- Getter: room coefficient. -/
def panner_getDTT (s : PannerData) : ℚ := s.DTT

/- ====================================================================== -/
/- The frame-boundary reconfiguration step                                 -/
/- ====================================================================== -/

/-- The pure services the audio/initialisation path invokes when it consumes
flags: the gain-table builder (resolution and layout to table), the rotation
engine (rotation parameters and a direction to a rotated direction), and the
per-source gain solver (table, rotated direction, spread and room
coefficient to a per-band gain row).  They are opaque parameters of the
state machine here; the flag/ordering properties hold for every choice. -/
structure Ctx where
  buildTable : Nat × Nat → List (ℚ × ℚ) → Option (List (List ℚ))
  rotate : RotCfg → ℚ × ℚ → ℚ × ℚ
  solveSrc : Option (List (List ℚ)) → ℚ × ℚ → ℚ → ℚ → List (List ℚ)

/-- One action of the reconfiguration step, for stating ordering claims. -/
inductive StepAction where
  | rebuildTable
  | rebuildRotation
  | recalcSource (i : Nat)
deriving DecidableEq, Repr

/-- Staged counts take effect at the frame boundary (spec §5: no dynamic
count change takes effect mid-frame). -/
def applyCounts (s : PannerData) : PannerData :=
  { s with nSources := s.new_nSources, nLoudpkrs := s.new_nLoudpkrs }

/-- Modelled from the spec: service the full-table flag — when
`reInitGainTables` is set, rebuild `vbap_gtable` from the current resolution
and layout and clear the flag. -/
def serviceTable (c : Ctx) (s : PannerData) : PannerData × List StepAction :=
  if s.reInitGainTables then
    ({ s with vbap_gtable := c.buildTable s.vbapTableRes s.loudpkrs_dirs_deg,
              reInitGainTables := false }, [.rebuildTable])
  else (s, [])

/-- Modelled from the spec: service the rotation flag — when
`recalc_M_rotFLAG` is set, recompute every rotated source direction from the
raw directions and the rotation parameters and clear the flag (a non-finite
direction stays non-finite). -/
def serviceRotation (c : Ctx) (s : PannerData) : PannerData × List StepAction :=
  if s.recalc_M_rotFLAG then
    ({ s with src_dirs_rot_deg := s.src_dirs_deg.map (Option.map (c.rotate s.rot)),
              recalc_M_rotFLAG := false }, [.rebuildRotation])
  else (s, [])

/-- A direction is well-formed when it is finite and its angles are in
range (azimuth within ±360°, elevation within ±90°; modelled from the spec's
"malformed (NaN/out-of-range) direction"). -/
def dirInRange (d : ℚ × ℚ) : Bool :=
  decide (-360 ≤ d.1 ∧ d.1 ≤ 360 ∧ -90 ≤ d.2 ∧ d.2 ≤ 90)

/-- A source is valid when its index is inside the current valid range and
its direction is finite and in range. -/
def sourceValid (s : PannerData) (i : Nat) : Bool :=
  decide (i < s.nSources) &&
    (match s.src_dirs_deg[i]? with
     | some (some d) => dirInRange d
     | _ => false)

/-- An all-zero per-band gain row. -/
def zeroRow (nBands nLs : Nat) : List (List ℚ) :=
  List.replicate nBands (List.replicate nLs 0)

/-- Modelled from the spec: recompute one source's per-band gain row — an
invalid source yields the all-zero row and an `InvalidSource` condition
(silent degradation), a valid one the solver's output for its rotated
direction. -/
def recalcRow (c : Ctx) (s : PannerData) (i : Nat) :
    List (List ℚ) × Option PannerError :=
  if sourceValid s i then
    (c.solveSrc s.vbap_gtable ((s.src_dirs_rot_deg.getD i none).getD (0, 0))
      s.spread_deg s.DTT, none)
  else (zeroRow HYBRID_BANDS s.nLoudpkrs, some .InvalidSource)

/-- Whether source `i`'s per-source recalculation flag is raised. -/
def flagOn (s : PannerData) (i : Nat) : Bool :=
  s.recalc_gainsFLAG.getD i false

/-- Modelled from the spec: service the per-source flags — only the rows
whose individual flags are set are recomputed, all flags are cleared, and
the per-source `InvalidSource` conditions are collected (the frame is never
aborted). -/
def serviceSources (c : Ctx) (s : PannerData) :
    PannerData × List StepAction × List (Nat × PannerError) :=
  ({ s with
      G_src := List.ofFn (n := s.G_src.length) fun m =>
        if flagOn s m.val then (recalcRow c s m.val).1 else s.G_src.get m,
      recalc_gainsFLAG := s.recalc_gainsFLAG.map fun _ => false },
   ((List.range s.G_src.length).filter (flagOn s)).map .recalcSource,
   ((List.range s.G_src.length).filter (flagOn s)).filterMap fun i =>
     ((recalcRow c s i).2).map fun e => (i, e))

/-- Modelled from the spec: the reconfiguration work done at one frame
boundary, in the fixed dependency order — staged counts applied, then the
full-table flag, then the rotation flag, then the per-source flags. -/
def frameBoundaryStep (c : Ctx) (s : PannerData) :
    PannerData × List StepAction × List (Nat × PannerError) :=
  let s0 := applyCounts s
  let ta := serviceTable c s0
  let ra := serviceRotation c ta.1
  let sa := serviceSources c ra.1
  (sa.1, ta.2 ++ ra.2 ++ sa.2.1, sa.2.2)

/- Shared list helpers -/

theorem getD_replicate_eq_ite {α : Type} (n i : Nat) (a d : α) :
    (List.replicate n a).getD i d = if i < n then a else d := by
  rcases Nat.lt_or_ge i n with h | h
  · rw [List.getD_eq_getElem?_getD, List.getElem?_replicate, if_pos h]
    simp [h]
  · rw [List.getD_eq_getElem?_getD, List.getElem?_replicate, if_neg (by omega)]
    simp [Nat.not_lt.mpr h]

theorem getElem?_ofFn_lt {α : Type} {n : Nat} (f : Fin n → α) {i : Nat} (h : i < n) :
    (List.ofFn f)[i]? = some (f ⟨i, h⟩) := by
  rw [List.getElem?_eq_getElem (by simp [h])]
  simp [List.getElem_ofFn]

/- ====================================================================== -/
/- C2: control-path boundary rejection                                     -/
/- ====================================================================== -/

/-- C2: every control-path request of a source or loudspeaker count beyond
the fixed capacity maxima is rejected with `CapacityExceeded`, and every
degenerate layout with `InvalidLayout`, at the point the request is made:
the returned state is exactly the input state, so no flag is raised and
nothing reaches the audio/rebuild path. -/
theorem control_path_rejects_before_flags (s : PannerData) (n : Nat)
    (dirs : List (ℚ × ℚ)) (nDims : Nat) :
    (MAX_NUM_INPUTS < n →
      panner_setNumSources s n = (s, some .CapacityExceeded)) ∧
    (MAX_NUM_OUTPUTS < dirs.length →
      panner_setLoudspeakerLayout s dirs nDims = (s, some .CapacityExceeded)) ∧
    (dirs.length ≤ MAX_NUM_OUTPUTS → layoutDegenerate nDims dirs = true →
      panner_setLoudspeakerLayout s dirs nDims = (s, some .InvalidLayout)) := by
  refine ⟨fun h => ?_, fun h => ?_, fun h hd => ?_⟩
  · rw [panner_setNumSources, if_pos h]
  · rw [panner_setLoudspeakerLayout, if_pos h]
  · rw [panner_setLoudspeakerLayout, if_neg (by omega), if_pos hd]

/-- A concrete, fully-applied panner state used to witness several claims:
one source at azimuth/elevation (0°, 0°), two loudspeakers, no pending
flag. -/
def sampleState : PannerData :=
  { vbapTableRes := (2, 5)
    vbap_gtable := some [[1, 0], [0, 1]]
    G_src := [[[1, 0]]]
    recalc_gainsFLAG := [false]
    recalc_M_rotFLAG := false
    reInitGainTables := false
    src_dirs_rot_deg := [some (0, 0)]
    new_nLoudpkrs := 2
    new_nSources := 1
    nSources := 1
    src_dirs_deg := [some (0, 0)]
    DTT := 1/2
    spread_deg := 0
    nLoudpkrs := 2
    loudpkrs_dirs_deg := [(-30, 0), (30, 0)]
    rot := ⟨0, 0, 0, false, false, false⟩ }

/-- Witness for C2: a request of 65 sources (capacity 64), a 65-loudspeaker
request, and a single-loudspeaker 3-D layout (degenerate). -/
theorem control_path_rejects_before_flags_witness :
    (panner_setNumSources sampleState 65
      = (sampleState, some .CapacityExceeded)) ∧
    (panner_setLoudspeakerLayout sampleState (List.replicate 65 (0, 0)) 3
      = (sampleState, some .CapacityExceeded)) ∧
    (panner_setLoudspeakerLayout sampleState [(0, 0)] 3
      = (sampleState, some .InvalidLayout)) := by
  obtain ⟨h1, h2, h3⟩ := control_path_rejects_before_flags sampleState 65
    (List.replicate 65 ((0 : ℚ), (0 : ℚ))) 3
  refine ⟨h1 (by norm_num [MAX_NUM_INPUTS]), h2 (by simp [MAX_NUM_OUTPUTS]), ?_⟩
  obtain ⟨_, _, h3'⟩ := control_path_rejects_before_flags sampleState 65 [(0, 0)] 3
  exact h3' (by simp [MAX_NUM_OUTPUTS]) (by simp [layoutDegenerate])

/- ====================================================================== -/
/- C8: setters, pending values and getters                                 -/
/- ====================================================================== -/

/-- C8 counterexample: the claim "every setter stages a pending value …
and every getter returns the last fully-applied value, never a pending
value" fails for the direction setter: the `_panner` structure has no shadow
field for source directions, so `panner_setSourceDir` writes `src_dirs_deg`
directly, and immediately afterwards — while the write is still pending
(its `recalc_gainsFLAG` is raised and no frame boundary has run) — the
getter already returns the new value (90°, 10°) instead of the last applied
one (0°, 0°). -/
theorem setter_direction_not_staged_counterexample :
    (panner_setSourceDir sampleState 0 (90, 10)).recalc_gainsFLAG.getD 0 false
      = true ∧
    panner_getSourceDir (panner_setSourceDir sampleState 0 (90, 10)) 0
      = some (some (90, 10)) ∧
    panner_getSourceDir sampleState 0 = some (some (0, 0)) ∧
    some (some ((90 : ℚ), (10 : ℚ))) ≠ some (some ((0 : ℚ), (0 : ℚ))) := by
  refine ⟨rfl, rfl, rfl, by norm_num⟩

/-- C8 (amended): the count setters stage pending values (`new_nSources`,
`new_nLoudpkrs`) and raise the relevant flags, and the applied counts (and
their getters) are unchanged until a frame boundary; the scalar/vector
parameter setters (source direction, spread, room coefficient, rotation,
table resolution) write their single atomic current-value field directly and
raise the corresponding recalculation flag, so their getters return the
latest set value even before it is applied. -/
theorem setters_stage_counts_write_params (s : PannerData) (n i : Nat)
    (d : ℚ × ℚ) (v w : ℚ) (r : RotCfg) (res : Nat × Nat)
    (dirs : List (ℚ × ℚ)) (nDims : Nat)
    (hn : n ≤ MAX_NUM_INPUTS) (hi : i < s.src_dirs_deg.length)
    (hif : i < s.recalc_gainsFLAG.length)
    (hdl : dirs.length ≤ MAX_NUM_OUTPUTS)
    (hdg : layoutDegenerate nDims dirs = false) :
    ((panner_setNumSources s n).1.new_nSources = n ∧
     (panner_setNumSources s n).1.nSources = s.nSources ∧
     panner_getNumSources (panner_setNumSources s n).1 = panner_getNumSources s ∧
     ∀ j, j < MAX_NUM_INPUTS → flagOn (panner_setNumSources s n).1 j = true) ∧
    ((panner_setLoudspeakerLayout s dirs nDims).1.new_nLoudpkrs = dirs.length ∧
     (panner_setLoudspeakerLayout s dirs nDims).1.nLoudpkrs = s.nLoudpkrs ∧
     (panner_setLoudspeakerLayout s dirs nDims).1.reInitGainTables = true ∧
     panner_getNumLoudspeakers (panner_setLoudspeakerLayout s dirs nDims).1
       = panner_getNumLoudspeakers s) ∧
    (panner_getSourceDir (panner_setSourceDir s i d) i = some (some d) ∧
     flagOn (panner_setSourceDir s i d) i = true) ∧
    (panner_getSpread (panner_setSpread s v) = v ∧
     ∀ j, j < MAX_NUM_INPUTS → flagOn (panner_setSpread s v) j = true) ∧
    (panner_getDTT (panner_setDTT s w) = w ∧
     ∀ j, j < MAX_NUM_INPUTS → flagOn (panner_setDTT s w) j = true) ∧
    ((panner_setRotation s r).rot = r ∧
     (panner_setRotation s r).recalc_M_rotFLAG = true) ∧
    ((panner_setTableRes s res).vbapTableRes = res ∧
     (panner_setTableRes s res).reInitGainTables = true) := by
  have hflag : ∀ j, j < MAX_NUM_INPUTS →
      (List.replicate MAX_NUM_INPUTS true).getD j false = true := by
    intro j hj
    rw [getD_replicate_eq_ite, if_pos hj]
  refine ⟨?_, ?_, ?_, ?_, ?_, ?_, ?_⟩
  · rw [panner_setNumSources, if_neg (by omega)]
    exact ⟨rfl, rfl, rfl, fun j hj => hflag j hj⟩
  · rw [panner_setLoudspeakerLayout, if_neg (by omega), if_neg (by simp [hdg])]
    exact ⟨rfl, rfl, rfl, rfl⟩
  · constructor
    · rw [panner_getSourceDir, panner_setSourceDir]
      exact List.getElem?_set_eq hi
    · rw [flagOn, panner_setSourceDir]
      simp only [List.getD_eq_getElem?_getD, List.getElem?_set_eq hif,
        Option.getD_some]
  · exact ⟨rfl, fun j hj => hflag j hj⟩
  · exact ⟨rfl, fun j hj => hflag j hj⟩
  · exact ⟨rfl, rfl⟩
  · exact ⟨rfl, rfl⟩

/-- Witness for C8 (amended), at the concrete `sampleState`. -/
theorem setters_stage_counts_write_params_witness :
    ((panner_setNumSources sampleState 1).1.new_nSources = 1 ∧
     (panner_setNumSources sampleState 1).1.nSources = sampleState.nSources ∧
     panner_getNumSources (panner_setNumSources sampleState 1).1
       = panner_getNumSources sampleState ∧
     ∀ j, j < MAX_NUM_INPUTS →
       flagOn (panner_setNumSources sampleState 1).1 j = true) ∧
    ((panner_setLoudspeakerLayout sampleState [(10, 0), (90, 0), (0, 90)] 3).1.new_nLoudpkrs
        = 3 ∧
     (panner_setLoudspeakerLayout sampleState [(10, 0), (90, 0), (0, 90)] 3).1.nLoudpkrs
        = sampleState.nLoudpkrs ∧
     (panner_setLoudspeakerLayout sampleState
        [(10, 0), (90, 0), (0, 90)] 3).1.reInitGainTables = true ∧
     panner_getNumLoudspeakers
        (panner_setLoudspeakerLayout sampleState [(10, 0), (90, 0), (0, 90)] 3).1
       = panner_getNumLoudspeakers sampleState) ∧
    (panner_getSourceDir (panner_setSourceDir sampleState 0 (45, 5)) 0
        = some (some (45, 5)) ∧
     flagOn (panner_setSourceDir sampleState 0 (45, 5)) 0 = true) ∧
    (panner_getSpread (panner_setSpread sampleState 30) = 30 ∧
     ∀ j, j < MAX_NUM_INPUTS → flagOn (panner_setSpread sampleState 30) j = true) ∧
    (panner_getDTT (panner_setDTT sampleState 1) = 1 ∧
     ∀ j, j < MAX_NUM_INPUTS → flagOn (panner_setDTT sampleState 1) j = true) ∧
    ((panner_setRotation sampleState ⟨10, 20, 30, true, false, false⟩).rot
        = ⟨10, 20, 30, true, false, false⟩ ∧
     (panner_setRotation sampleState
        ⟨10, 20, 30, true, false, false⟩).recalc_M_rotFLAG = true) ∧
    ((panner_setTableRes sampleState (1, 1)).vbapTableRes = (1, 1) ∧
     (panner_setTableRes sampleState (1, 1)).reInitGainTables = true) := by
  have h := setters_stage_counts_write_params sampleState 1 0 (45, 5) 30 1
    ⟨10, 20, 30, true, false, false⟩ (1, 1) [(10, 0), (90, 0), (0, 90)] 3
    (by norm_num [MAX_NUM_INPUTS]) (by simp [sampleState]) (by simp [sampleState])
    (by simp [MAX_NUM_OUTPUTS])
    (by
      have hnd : ([((10 : ℚ), (0 : ℚ)), (90, 0), (0, 90)]).Nodup := by
        norm_num [Prod.ext_iff]
      simp [layoutDegenerate, List.dedup_eq_self.mpr hnd])
  simpa using h

/- ====================================================================== -/
/- C4: flag service order at the frame boundary                            -/
/- ====================================================================== -/

theorem serviceTable_preserves (c : Ctx) (s : PannerData) :
    (serviceTable c s).1.recalc_gainsFLAG = s.recalc_gainsFLAG ∧
    (serviceTable c s).1.recalc_M_rotFLAG = s.recalc_M_rotFLAG ∧
    (serviceTable c s).1.G_src = s.G_src := by
  unfold serviceTable
  split <;> exact ⟨rfl, rfl, rfl⟩

theorem serviceTable_trace (c : Ctx) (s : PannerData) :
    (serviceTable c s).2 = if s.reInitGainTables then [.rebuildTable] else [] := by
  unfold serviceTable
  split <;> simp_all

theorem serviceRotation_preserves (c : Ctx) (s : PannerData) :
    (serviceRotation c s).1.recalc_gainsFLAG = s.recalc_gainsFLAG ∧
    (serviceRotation c s).1.G_src = s.G_src := by
  unfold serviceRotation
  split <;> exact ⟨rfl, rfl⟩

theorem serviceRotation_trace (c : Ctx) (s : PannerData) :
    (serviceRotation c s).2 = if s.recalc_M_rotFLAG then [.rebuildRotation] else [] := by
  unfold serviceRotation
  split <;> simp_all

/-- The state entering the per-source service inside `frameBoundaryStep`. -/
def midState (c : Ctx) (s : PannerData) : PannerData :=
  (serviceRotation c (serviceTable c (applyCounts s)).1).1

theorem midState_flags (c : Ctx) (s : PannerData) :
    (midState c s).recalc_gainsFLAG = s.recalc_gainsFLAG := by
  unfold midState
  rw [(serviceRotation_preserves c _).1, (serviceTable_preserves c _).1]
  rfl

theorem midState_G_src (c : Ctx) (s : PannerData) :
    (midState c s).G_src = s.G_src := by
  unfold midState
  rw [(serviceRotation_preserves c _).2, (serviceTable_preserves c _).2.2]
  rfl

theorem flagOn_midState (c : Ctx) (s : PannerData) (i : Nat) :
    flagOn (midState c s) i = flagOn s i := by
  unfold flagOn
  rw [midState_flags]

theorem frameBoundaryStep_eq (c : Ctx) (s : PannerData) :
    frameBoundaryStep c s =
      ((serviceSources c (midState c s)).1,
       (serviceTable c (applyCounts s)).2
         ++ (serviceRotation c (serviceTable c (applyCounts s)).1).2
         ++ (serviceSources c (midState c s)).2.1,
       (serviceSources c (midState c s)).2.2) := rfl

/-- C4: at every frame boundary the flags are serviced in the fixed
dependency order — the trace decomposes as table actions, then rotation
actions, then per-source actions; the table action occurs exactly when
`reInitGainTables` was set, the rotation action exactly when
`recalc_M_rotFLAG` was set, and source `i` is recomputed exactly when its
`recalc_gainsFLAG[i]` was set (and `i` indexes a gain row); rows whose flag
was clear keep their gain row unchanged. -/
theorem frame_step_ordering (c : Ctx) (s : PannerData) :
    (∃ ta ra sa,
      (frameBoundaryStep c s).2.1 = ta ++ ra ++ sa ∧
      (∀ a ∈ ta, a = StepAction.rebuildTable) ∧
      (∀ a ∈ ra, a = StepAction.rebuildRotation) ∧
      (∀ a ∈ sa, ∃ i, a = StepAction.recalcSource i)) ∧
    (StepAction.rebuildTable ∈ (frameBoundaryStep c s).2.1 ↔
      s.reInitGainTables = true) ∧
    (StepAction.rebuildRotation ∈ (frameBoundaryStep c s).2.1 ↔
      s.recalc_M_rotFLAG = true) ∧
    (∀ i, StepAction.recalcSource i ∈ (frameBoundaryStep c s).2.1 ↔
      (i < s.G_src.length ∧ flagOn s i = true)) ∧
    ((frameBoundaryStep c s).1.G_src.length = s.G_src.length) ∧
    (∀ i, i < s.G_src.length → flagOn s i = false →
      (frameBoundaryStep c s).1.G_src[i]? = s.G_src[i]?) := by
  have hta := serviceTable_trace c (applyCounts s)
  have hra := serviceRotation_trace c (serviceTable c (applyCounts s)).1
  have hrot : (serviceTable c (applyCounts s)).1.recalc_M_rotFLAG
      = s.recalc_M_rotFLAG := (serviceTable_preserves c _).2.1
  have hreinit : (applyCounts s).reInitGainTables = s.reInitGainTables := rfl
  have hsa : (serviceSources c (midState c s)).2.1
      = ((List.range s.G_src.length).filter (flagOn s)).map .recalcSource := by
    unfold serviceSources
    simp only [midState_G_src]
    congr 1
    apply List.filter_congr
    intro i _
    rw [flagOn_midState]
  have hG : (serviceSources c (midState c s)).1.G_src
      = List.ofFn (n := (midState c s).G_src.length) fun m =>
          if flagOn (midState c s) m.val then (recalcRow c (midState c s) m.val).1
          else (midState c s).G_src.get m := rfl
  refine ⟨?_, ?_, ?_, ?_, ?_, ?_⟩
  · refine ⟨(serviceTable c (applyCounts s)).2,
      (serviceRotation c (serviceTable c (applyCounts s)).1).2,
      (serviceSources c (midState c s)).2.1, rfl, ?_, ?_, ?_⟩
    · rw [hta]
      split <;> simp
    · rw [hra]
      split <;> simp
    · rw [hsa]
      intro a ha
      obtain ⟨i, _, rfl⟩ := List.mem_map.mp ha
      exact ⟨i, rfl⟩
  · rw [frameBoundaryStep_eq]
    simp only [List.mem_append, hta, hra, hsa, hreinit, hrot]
    constructor
    · rintro ((h | h) | h)
      · revert h
        split <;> simp_all
      · revert h
        split <;> simp_all
      · obtain ⟨i, _, h⟩ := List.mem_map.mp h
        exact absurd h (by simp)
    · intro h
      left; left
      rw [h]
      simp
  · rw [frameBoundaryStep_eq]
    simp only [List.mem_append, hta, hra, hsa, hreinit, hrot]
    constructor
    · rintro ((h | h) | h)
      · revert h
        split <;> simp_all
      · revert h
        split <;> simp_all
      · obtain ⟨i, _, h⟩ := List.mem_map.mp h
        exact absurd h (by simp)
    · intro h
      left; right
      rw [h]
      simp
  · intro i
    rw [frameBoundaryStep_eq]
    simp only [List.mem_append, hta, hra, hsa]
    constructor
    · rintro ((h | h) | h)
      · revert h
        split <;> simp_all
      · revert h
        split <;> simp_all
      · obtain ⟨j, hj, hinj⟩ := List.mem_map.mp h
        obtain ⟨hjr, hjf⟩ := List.mem_filter.mp hj
        obtain rfl : j = i := by
          injection hinj
        exact ⟨List.mem_range.mp hjr, hjf⟩
    · rintro ⟨hilen, hif⟩
      right
      rw [List.mem_map]
      exact ⟨i, List.mem_filter.mpr ⟨List.mem_range.mpr hilen, hif⟩, rfl⟩
  · rw [frameBoundaryStep_eq]
    simp only [hG, List.length_ofFn, midState_G_src]
  · intro i hi hif
    rw [frameBoundaryStep_eq]
    simp only [hG]
    have hi' : i < (midState c s).G_src.length := by rw [midState_G_src]; exact hi
    rw [getElem?_ofFn_lt _ hi', flagOn_midState, hif, if_neg (by simp)]
    rw [List.getElem?_eq_getElem hi]
    simp only [List.get_eq_getElem, midState_G_src]

/-- A concrete service context used by witnesses: identity-style pure
services. -/
def sampleCtx : Ctx :=
  { buildTable := fun _ _ => some [[1, 0], [0, 1]]
    rotate := fun _ d => d
    solveSrc := fun _ _ _ _ => [[1, 0]] }

/-- A concrete two-source state with only source 0 flagged. -/
def sampleState2 : PannerData :=
  { sampleState with
      G_src := [[[1, 0]], [[0, 1]]]
      recalc_gainsFLAG := [true, false]
      nSources := 2
      new_nSources := 2
      src_dirs_deg := [some (0, 0), some (45, 0)]
      src_dirs_rot_deg := [some (0, 0), some (45, 0)] }

/-- Witness for C4, at `sampleCtx`/`sampleState2`: the unflagged source 1
keeps its gain row across the frame boundary, and source 0's recalculation
action is in the trace exactly because its flag was set. -/
theorem frame_step_ordering_witness :
    (frameBoundaryStep sampleCtx sampleState2).1.G_src[1]?
      = sampleState2.G_src[1]? ∧
    (StepAction.recalcSource 0 ∈ (frameBoundaryStep sampleCtx sampleState2).2.1 ↔
      (0 < sampleState2.G_src.length ∧ flagOn sampleState2 0 = true)) :=
  ⟨(frame_step_ordering sampleCtx sampleState2).2.2.2.2.2 1
      (by simp [sampleState2, sampleState]) rfl,
   (frame_step_ordering sampleCtx sampleState2).2.2.2.1 0⟩

/- ====================================================================== -/
/- C3: invalid sources degrade silently                                    -/
/- ====================================================================== -/

/-- C3: during per-source gain solving, a source whose index is out of the
current valid range or whose direction is malformed (non-finite or out of
range) raises `InvalidSource` and gets exactly its own row of the gain
matrix zeroed for the current frame; the frame is not aborted (all rows are
still produced) and every other source's row is either unchanged (flag
clear) or the solver's normal output (flag set and valid); every entry
written to the invalid row is 0 (no non-finite value). -/
theorem invalid_source_zeroed (c : Ctx) (s : PannerData) (i : Nat)
    (hi : i < s.G_src.length) (hflag : flagOn s i = true)
    (hinv : sourceValid s i = false) :
    (serviceSources c s).1.G_src[i]? = some (zeroRow HYBRID_BANDS s.nLoudpkrs) ∧
    (∀ band ∈ zeroRow HYBRID_BANDS s.nLoudpkrs, ∀ q ∈ band, q = 0) ∧
    (i, PannerError.InvalidSource) ∈ (serviceSources c s).2.2 ∧
    (serviceSources c s).1.G_src.length = s.G_src.length ∧
    (∀ j, j < s.G_src.length → j ≠ i →
      ((flagOn s j = false → (serviceSources c s).1.G_src[j]? = s.G_src[j]?) ∧
       (flagOn s j = true → sourceValid s j = true →
         (serviceSources c s).1.G_src[j]? = some (c.solveSrc s.vbap_gtable
           ((s.src_dirs_rot_deg.getD j none).getD (0, 0)) s.spread_deg s.DTT)))) := by
  have hG : (serviceSources c s).1.G_src
      = List.ofFn (n := s.G_src.length) fun m =>
          if flagOn s m.val then (recalcRow c s m.val).1 else s.G_src.get m := rfl
  refine ⟨?_, ?_, ?_, ?_, ?_⟩
  · rw [hG, getElem?_ofFn_lt _ hi, hflag, if_pos rfl, recalcRow, if_neg (by simp [hinv])]
  · intro band hband q hq
    rw [zeroRow] at hband
    rw [List.eq_of_mem_replicate hband] at hq
    exact List.eq_of_mem_replicate hq
  · show (i, PannerError.InvalidSource) ∈
      ((List.range s.G_src.length).filter (flagOn s)).filterMap fun j =>
        ((recalcRow c s j).2).map fun e => (j, e)
    rw [List.mem_filterMap]
    refine ⟨i, List.mem_filter.mpr ⟨List.mem_range.mpr hi, hflag⟩, ?_⟩
    rw [recalcRow, if_neg (by simp [hinv])]
    rfl
  · rw [hG, List.length_ofFn]
  · intro j hj _
    constructor
    · intro hjf
      rw [hG, getElem?_ofFn_lt _ hj, hjf, if_neg (by simp),
        List.getElem?_eq_getElem hj, List.get_eq_getElem]
    · intro hjf hjv
      rw [hG, getElem?_ofFn_lt _ hj, hjf, if_pos rfl, recalcRow, if_pos hjv]

/-- A concrete state whose only source has a malformed (non-finite)
direction and a raised flag. -/
def sampleStateBad : PannerData :=
  { sampleState with
      src_dirs_deg := [none]
      recalc_gainsFLAG := [true] }

/-- Witness for C3, at `sampleCtx`/`sampleStateBad`: the malformed source 0
gets the all-zero row and an `InvalidSource` condition. -/
theorem invalid_source_zeroed_witness :
    (serviceSources sampleCtx sampleStateBad).1.G_src[0]?
      = some (zeroRow HYBRID_BANDS sampleStateBad.nLoudpkrs) ∧
    (0, PannerError.InvalidSource) ∈ (serviceSources sampleCtx sampleStateBad).2.2 := by
  have h := invalid_source_zeroed sampleCtx sampleStateBad 0
    (by simp [sampleStateBad, sampleState]) rfl rfl
  exact ⟨h.1, h.2.2.1⟩

/- ====================================================================== -/
/- C7: reconfiguration determinism / idempotence                           -/
/- ====================================================================== -/

/-- One layout/resolution/rotation parameter set, as issued by the control
path. -/
structure LayoutConfig where
  dirs : List (ℚ × ℚ)
  res : Nat × Nat
  rot : RotCfg

/-- Modelled from the spec: issuing a layout/resolution/rotation parameter
set — the layout and resolution are written, the new count staged, and the
full-table, rotation and all per-source flags raised. -/
def configure (s : PannerData) (cfg : LayoutConfig) : PannerData :=
  { s with loudpkrs_dirs_deg := cfg.dirs,
           new_nLoudpkrs := cfg.dirs.length,
           vbapTableRes := cfg.res,
           rot := cfg.rot,
           reInitGainTables := true,
           recalc_M_rotFLAG := true,
           recalc_gainsFLAG := List.replicate MAX_NUM_INPUTS true }

/-- Issue a parameter set and run the frame-boundary rebuild. -/
def applyConfig (c : Ctx) (cfg : LayoutConfig) (s : PannerData) : PannerData :=
  (frameBoundaryStep c (configure s cfg)).1

theorem applyConfig_G_src_eq (c : Ctx) (cfg : LayoutConfig) (s : PannerData) :
    (applyConfig c cfg s).G_src
      = List.ofFn (n := (midState c (configure s cfg)).G_src.length)
          fun m =>
            if flagOn (midState c (configure s cfg)) m.val
            then (recalcRow c (midState c (configure s cfg)) m.val).1
            else (midState c (configure s cfg)).G_src.get m := rfl

theorem midConfig_G_src (c : Ctx) (cfg : LayoutConfig) (s : PannerData) :
    (midState c (configure s cfg)).G_src = s.G_src := rfl

theorem midConfig_nSources (c : Ctx) (cfg : LayoutConfig) (s : PannerData) :
    (midState c (configure s cfg)).nSources = s.new_nSources := rfl

theorem midConfig_src_dirs (c : Ctx) (cfg : LayoutConfig) (s : PannerData) :
    (midState c (configure s cfg)).src_dirs_deg = s.src_dirs_deg := rfl

theorem midConfig_table (c : Ctx) (cfg : LayoutConfig) (s : PannerData) :
    (midState c (configure s cfg)).vbap_gtable
      = c.buildTable cfg.res cfg.dirs := rfl

theorem midConfig_rot_dirs (c : Ctx) (cfg : LayoutConfig) (s : PannerData) :
    (midState c (configure s cfg)).src_dirs_rot_deg
      = s.src_dirs_deg.map (Option.map (c.rotate cfg.rot)) := rfl

theorem midConfig_spread (c : Ctx) (cfg : LayoutConfig) (s : PannerData) :
    (midState c (configure s cfg)).spread_deg = s.spread_deg := rfl

theorem midConfig_DTT (c : Ctx) (cfg : LayoutConfig) (s : PannerData) :
    (midState c (configure s cfg)).DTT = s.DTT := rfl

theorem midConfig_nLoudpkrs (c : Ctx) (cfg : LayoutConfig) (s : PannerData) :
    (midState c (configure s cfg)).nLoudpkrs = cfg.dirs.length := rfl

theorem applyConfig_new_nSources (c : Ctx) (cfg : LayoutConfig) (s : PannerData) :
    (applyConfig c cfg s).new_nSources = s.new_nSources := rfl

theorem applyConfig_src_dirs (c : Ctx) (cfg : LayoutConfig) (s : PannerData) :
    (applyConfig c cfg s).src_dirs_deg = s.src_dirs_deg := rfl

theorem applyConfig_spread (c : Ctx) (cfg : LayoutConfig) (s : PannerData) :
    (applyConfig c cfg s).spread_deg = s.spread_deg := rfl

theorem applyConfig_DTT (c : Ctx) (cfg : LayoutConfig) (s : PannerData) :
    (applyConfig c cfg s).DTT = s.DTT := rfl

theorem flagOn_midConfig (c : Ctx) (cfg : LayoutConfig) (s : PannerData) (i : Nat) :
    flagOn (midState c (configure s cfg)) i = decide (i < MAX_NUM_INPUTS) := by
  rw [flagOn, midState_flags]
  show (List.replicate MAX_NUM_INPUTS true).getD i false = _
  rw [getD_replicate_eq_ite]
  by_cases h : i < MAX_NUM_INPUTS <;> simp [h]

theorem recalcRow_congr (c : Ctx) {s1 s2 : PannerData} (i : Nat)
    (h1 : s1.nSources = s2.nSources) (h2 : s1.src_dirs_deg = s2.src_dirs_deg)
    (h3 : s1.vbap_gtable = s2.vbap_gtable)
    (h4 : s1.src_dirs_rot_deg = s2.src_dirs_rot_deg)
    (h5 : s1.spread_deg = s2.spread_deg) (h6 : s1.DTT = s2.DTT)
    (h7 : s1.nLoudpkrs = s2.nLoudpkrs) :
    recalcRow c s1 i = recalcRow c s2 i := by
  rw [recalcRow, recalcRow, sourceValid, sourceValid, h1, h2, h3, h4, h5, h6, h7]

/-- C7: issuing the identical layout/table-resolution/rotation parameter
set twice in a row and running the frame-boundary rebuild each time produces
bit-identical gain tables (`vbap_gtable`) and bit-identical per-band gain
matrices (`G_src`) both times: reconfiguration is deterministic and
idempotent in its inputs. -/
theorem reconfiguration_idempotent (c : Ctx) (cfg : LayoutConfig) (s : PannerData) :
    (applyConfig c cfg (applyConfig c cfg s)).vbap_gtable
      = (applyConfig c cfg s).vbap_gtable ∧
    (applyConfig c cfg (applyConfig c cfg s)).G_src
      = (applyConfig c cfg s).G_src := by
  refine ⟨rfl, ?_⟩
  have hlen1 : (applyConfig c cfg s).G_src.length = s.G_src.length := by
    rw [applyConfig_G_src_eq, List.length_ofFn, midConfig_G_src]
  apply List.ext_getElem?
  intro i
  rcases Nat.lt_or_ge i s.G_src.length with hi | hi
  · have hi2 : i < (midState c (configure (applyConfig c cfg s) cfg)).G_src.length := by
      rw [midConfig_G_src]; omega
    have hi1 : i < (midState c (configure s cfg)).G_src.length := by
      rw [midConfig_G_src]; omega
    rw [applyConfig_G_src_eq c cfg (applyConfig c cfg s), getElem?_ofFn_lt _ hi2,
      flagOn_midConfig]
    by_cases hm : i < MAX_NUM_INPUTS
    · rw [if_pos (by simpa using hm)]
      rw [applyConfig_G_src_eq c cfg s, getElem?_ofFn_lt _ hi1, flagOn_midConfig,
        if_pos (by simpa using hm)]
      have heq : recalcRow c (midState c (configure (applyConfig c cfg s) cfg)) i
          = recalcRow c (midState c (configure s cfg)) i := by
        apply recalcRow_congr
        · rw [midConfig_nSources, applyConfig_new_nSources, midConfig_nSources]
        · rw [midConfig_src_dirs, applyConfig_src_dirs, midConfig_src_dirs]
        · rw [midConfig_table, midConfig_table]
        · rw [midConfig_rot_dirs, applyConfig_src_dirs, midConfig_rot_dirs]
        · rw [midConfig_spread, applyConfig_spread, midConfig_spread]
        · rw [midConfig_DTT, applyConfig_DTT, midConfig_DTT]
        · rw [midConfig_nLoudpkrs, midConfig_nLoudpkrs]
      rw [heq]
    · rw [if_neg (by simpa using hm)]
      have hi1' : i < (applyConfig c cfg s).G_src.length := by omega
      rw [List.getElem?_eq_getElem hi1']
      congr 1
  · have h2 : (applyConfig c cfg (applyConfig c cfg s)).G_src.length ≤ i := by
      rw [applyConfig_G_src_eq, List.length_ofFn, midConfig_G_src, hlen1]
      omega
    have h1 : (applyConfig c cfg s).G_src.length ≤ i := by omega
    rw [List.getElem?_eq_none h2, List.getElem?_eq_none h1]

/-- Witness for C7: the idempotence instantiated at the concrete
`sampleCtx`, a square layout configuration, and `sampleState`. -/
theorem reconfiguration_idempotent_witness :
    (applyConfig sampleCtx ⟨[(45, 0), (135, 0), (225, 0), (315, 0)], (2, 5),
        ⟨0, 0, 0, false, false, false⟩⟩
      (applyConfig sampleCtx ⟨[(45, 0), (135, 0), (225, 0), (315, 0)], (2, 5),
        ⟨0, 0, 0, false, false, false⟩⟩ sampleState)).vbap_gtable
      = (applyConfig sampleCtx ⟨[(45, 0), (135, 0), (225, 0), (315, 0)], (2, 5),
        ⟨0, 0, 0, false, false, false⟩⟩ sampleState).vbap_gtable ∧
    (applyConfig sampleCtx ⟨[(45, 0), (135, 0), (225, 0), (315, 0)], (2, 5),
        ⟨0, 0, 0, false, false, false⟩⟩
      (applyConfig sampleCtx ⟨[(45, 0), (135, 0), (225, 0), (315, 0)], (2, 5),
        ⟨0, 0, 0, false, false, false⟩⟩ sampleState)).G_src
      = (applyConfig sampleCtx ⟨[(45, 0), (135, 0), (225, 0), (315, 0)], (2, 5),
        ⟨0, 0, 0, false, false, false⟩⟩ sampleState).G_src :=
  reconfiguration_idempotent sampleCtx
    ⟨[(45, 0), (135, 0), (225, 0), (315, 0)], (2, 5), ⟨0, 0, 0, false, false, false⟩⟩
    sampleState

/- ====================================================================== -/
/- C9: band-domain shape and the compile-time frame-size check             -/
/- ====================================================================== -/

/-- C9 counterexample: the compile-time check
`#if (PANNER_FRAME_SIZE % HOP_SIZE != 0)` only rejects non-multiples of the
hop size, so the (user-definable) block size 0 — a multiple of 128 — is
accepted, yet yields `TIME_SLOTS = 0 / 128 = 0`, which is not a positive
number of time slots. -/
theorem timeSlots_zero_block_counterexample :
    frameSizeAccepted 0 = true ∧ ¬ 0 < TIME_SLOTS 0 := by
  constructor
  · decide
  · decide

/-- C9 (amended): the band-domain representation has the fixed number of
bands `HYBRID_BANDS = 133`, and the number of time slots is the block size
divided by the hop size; a block size that is not an integer multiple of
the hop size is rejected at compile time, and for every accepted *nonzero*
block size (in particular the default 128) the number of time slots is a
positive integer with `TIME_SLOTS · HOP_SIZE` recovering the block size
exactly. -/
theorem timeSlots_positive_of_accepted (frameSize : Nat)
    (hacc : frameSizeAccepted frameSize = true) (h0 : frameSize ≠ 0) :
    0 < TIME_SLOTS frameSize ∧
    TIME_SLOTS frameSize * HOP_SIZE = frameSize ∧
    HYBRID_BANDS = 133 ∧
    (∀ n, frameSizeAccepted n = true ↔ n % HOP_SIZE = 0) := by
  have hmod : frameSize % HOP_SIZE = 0 := by
    rw [frameSizeAccepted, Nat.beq_eq_true_eq] at hacc
    exact hacc
  rw [HOP_SIZE] at hmod
  refine ⟨?_, ?_, rfl, ?_⟩
  · rw [TIME_SLOTS, HOP_SIZE]
    omega
  · rw [TIME_SLOTS, HOP_SIZE]
    omega
  · intro n
    rw [frameSizeAccepted, Nat.beq_eq_true_eq]

/-- Witness for C9 (amended), at the default frame size 128: one time
slot. -/
theorem timeSlots_positive_of_accepted_witness :
    0 < TIME_SLOTS PANNER_FRAME_SIZE_default ∧
    TIME_SLOTS PANNER_FRAME_SIZE_default * HOP_SIZE = PANNER_FRAME_SIZE_default ∧
    HYBRID_BANDS = 133 ∧
    (∀ n, frameSizeAccepted n = true ↔ n % HOP_SIZE = 0) :=
  timeSlots_positive_of_accepted PANNER_FRAME_SIZE_default (by decide) (by decide)

/- ====================================================================== -/
/- C6: the frequency-dependent normalisation exponent profile (pValue)     -/
/- ====================================================================== -/

/-- The normalisation exponent of the low-frequency regime (amplitude
preservation). -/
def pAmp : ℚ := 1

/-- The normalisation exponent of the high-frequency regime (energy
preservation). -/
def pEnergy : ℚ := 2

/-- Modelled from the spec: the room-coefficient-dependent crossover
frequency of the normalisation blend — the more reverberant the room
(smaller `DTT`), the higher the frequency up to which amplitude
preservation dominates (`getPvalue` lives in the SAF library, not under
`src/`). -/
def crossoverFreq (dtt : ℚ) : ℚ := 200 + 800 * (1 - dtt)

/-- Modelled from the spec: the per-band normalisation exponent `pValue` —
a blend from the amplitude-preserving exponent at low frequency toward the
energy-preserving exponent at high frequency, controlled by the room
coefficient `DTT` and the band's centre frequency. -/
def pValue (dtt f : ℚ) : ℚ :=
  pAmp + (pEnergy - pAmp) * (f / (f + crossoverFreq dtt))

/-- Modelled from the spec: the centre frequency of band `k` of the
external transform (fixed band count `HYBRID_BANDS`), linearly spaced up to
the Nyquist frequency `fs / 2`. -/
def freqVector (fs : ℚ) (k : Nat) : ℚ :=
  (k : ℚ) * fs / (2 * ((HYBRID_BANDS : ℚ) - 1))

/-- C6: for every fixed room coefficient, the per-band normalisation
exponent profile is monotonic across the frequency bands: at the lowest
band (centre frequency 0) the exponent is exactly the amplitude-preserving
one, it increases with the band's centre frequency, and it stays strictly
below the energy-preserving exponent, which it approaches from below at the
highest band. -/
theorem pValue_profile_monotone (dtt fs : ℚ) (hd1 : dtt ≤ 1) (hfs : 0 < fs)
    (i j : Nat) (hij : i ≤ j) :
    pValue dtt (freqVector fs i) ≤ pValue dtt (freqVector fs j) ∧
    pValue dtt (freqVector fs 0) = pAmp ∧
    pAmp ≤ pValue dtt (freqVector fs i) ∧
    pValue dtt (freqVector fs i) < pEnergy := by
  have hc : 0 < crossoverFreq dtt := by
    rw [crossoverFreq]
    nlinarith
  have hfnn : ∀ k : Nat, 0 ≤ freqVector fs k := by
    intro k
    exact div_nonneg (mul_nonneg (Nat.cast_nonneg k) (le_of_lt hfs))
      (by norm_num [HYBRID_BANDS, HOP_SIZE])
  have hf12 : freqVector fs i ≤ freqVector fs j := by
    rw [freqVector, freqVector]
    apply div_le_div_of_nonneg_right ?_ ?_ |>.trans_eq rfl
    · exact mul_le_mul_of_nonneg_right (by exact_mod_cast hij) (le_of_lt hfs)
    · norm_num [HYBRID_BANDS, HOP_SIZE]
  refine ⟨?_, ?_, ?_, ?_⟩
  · rw [pValue, pValue, pAmp, pEnergy]
    norm_num
    rw [div_le_div_iff (by linarith [hfnn i]) (by linarith [hfnn j])]
    nlinarith [hfnn i, hfnn j]
  · rw [pValue, freqVector]
    norm_num
  · rw [pValue, pAmp, pEnergy]
    have : 0 ≤ freqVector fs i / (freqVector fs i + crossoverFreq dtt) :=
      div_nonneg (hfnn i) (by linarith [hfnn i])
    linarith
  · rw [pValue, pAmp, pEnergy]
    have hlt : freqVector fs i / (freqVector fs i + crossoverFreq dtt) < 1 := by
      rw [div_lt_one (by linarith [hfnn i])]
      linarith
    linarith

/-- Witness for C6: room coefficient ½ at 48 kHz, from the lowest band to
the highest band index 132. -/
theorem pValue_profile_monotone_witness :
    pValue (1/2) (freqVector 48000 0) ≤ pValue (1/2) (freqVector 48000 132) ∧
    pValue (1/2) (freqVector 48000 0) = pAmp ∧
    pAmp ≤ pValue (1/2) (freqVector 48000 0) ∧
    pValue (1/2) (freqVector 48000 0) < pEnergy :=
  pValue_profile_monotone (1/2) 48000 (by norm_num) (by norm_num) 0 132
    (by norm_num)

/- ====================================================================== -/
/- C5: spread (MDAP) never increases total gain energy                     -/
/- ====================================================================== -/

/-- Total summed gain energy of a gain vector across the loudspeakers. -/
noncomputable def energy {n : Nat} (v : Fin n → ℝ) : ℝ := ∑ i, (v i) ^ 2

/-- Modelled from the spec: the ring of virtual directions sampled around a
source direction when the spread angle is positive (their count and spacing
are an internal design parameter); zero spread is a single lookup of the
source direction itself. -/
def virtualRing (dir : ℚ × ℚ) (spread : ℚ) : List (ℚ × ℚ) :=
  if spread = 0 then [dir]
  else [dir, (dir.1 - spread / 2, dir.2), (dir.1 + spread / 2, dir.2),
        (dir.1, dir.2 - spread / 2), (dir.1, dir.2 + spread / 2)]

/-- The average of the gain-table lookups over a list of directions. -/
noncomputable def avgGains {n : Nat} (lookup : ℚ × ℚ → Fin n → ℝ) (dirs : List (ℚ × ℚ)) :
    Fin n → ℝ :=
  fun i => ((dirs.map fun d => lookup d i).sum) / (dirs.length : ℝ)

/-- Renormalisation of a gain vector to unit total power (the square root
forces a real-valued model of this stage). -/
noncomputable def powerNormalize {n : Nat} (v : Fin n → ℝ) : Fin n → ℝ :=
  fun i => v i / Real.sqrt (energy v)

/-- Modelled from the spec: the spread stage of the per-source gain solver —
for spread 0 a single table lookup, otherwise the average of the lookups
over the virtual-direction ring, in both cases renormalised so the total
panned power is unchanged by spreading (`panner.c` is not under `src/`). -/
noncomputable def spreadGains {n : Nat} (lookup : ℚ × ℚ → Fin n → ℝ)
    (dir : ℚ × ℚ) (spread : ℚ) : Fin n → ℝ :=
  powerNormalize (avgGains lookup (virtualRing dir spread))

theorem sum_fin_list_sum {n : Nat} (dirs : List (ℚ × ℚ))
    (f : ℚ × ℚ → Fin n → ℝ) :
    (∑ i, (dirs.map fun d => f d i).sum) = (dirs.map fun d => ∑ i, f d i).sum := by
  induction dirs with
  | nil => simp
  | cons d rest ih => simp [Finset.sum_add_distrib, ih]

theorem energy_powerNormalize {n : Nat} (v : Fin n → ℝ) (h : energy v ≠ 0) :
    energy (powerNormalize v) = 1 := by
  have hnn : 0 ≤ energy v := Finset.sum_nonneg fun i _ => sq_nonneg _
  rw [energy]
  simp only [powerNormalize, div_pow, Real.sq_sqrt hnn]
  rw [← Finset.sum_div, ← energy, div_self h]

/-- C5: for a fixed source direction and any spread angles `0 ≤ s1 ≤ s2`,
the total summed gain energy produced by the spread stage at `s2` is not
greater than at `s1` — indeed, whenever the table lookups are
unit-amplitude rows (as Gain-Table Builder cells are), the spread stage
averages lookups over the virtual ring without changing total power at all
(energy 1 at every spread). -/
theorem spread_energy_nonincreasing {n : Nat} (lookup : ℚ × ℚ → Fin n → ℝ)
    (hlookup : ∀ d, (∑ i, lookup d i) = 1)
    (dir : ℚ × ℚ) (s1 s2 : ℚ) (h0 : 0 ≤ s1) (h12 : s1 ≤ s2) :
    energy (spreadGains lookup dir s2) ≤ energy (spreadGains lookup dir s1) ∧
    (∀ s : ℚ, energy (spreadGains lookup dir s) = 1) := by
  have key : ∀ s : ℚ, energy (spreadGains lookup dir s) = 1 := by
    intro s
    have hlen : ((virtualRing dir s).length : ℝ) ≠ 0 := by
      rw [virtualRing]
      split <;> simp
    have hsum : (∑ i, avgGains lookup (virtualRing dir s) i) = 1 := by
      unfold avgGains
      rw [← Finset.sum_div, sum_fin_list_sum]
      rw [List.map_congr_left fun d _ => hlookup d]
      rw [List.map_const', List.sum_replicate, nsmul_eq_mul, mul_one, div_self hlen]
    have hE : energy (avgGains lookup (virtualRing dir s)) ≠ 0 := by
      intro h
      have hz : ∀ i ∈ Finset.univ, avgGains lookup (virtualRing dir s) i = 0 := by
        intro i _
        have hnn : ∀ j ∈ Finset.univ,
            0 ≤ (avgGains lookup (virtualRing dir s) j) ^ 2 := fun j _ => sq_nonneg _
        have := (Finset.sum_eq_zero_iff_of_nonneg hnn).mp h i (Finset.mem_univ i)
        exact pow_eq_zero_iff (by norm_num) |>.mp this
      rw [Finset.sum_congr rfl hz, Finset.sum_const_zero] at hsum
      exact one_ne_zero hsum.symm
    exact energy_powerNormalize _ hE
  exact ⟨le_of_eq (by rw [key s2, key s1]), key⟩

/-- Witness for C5: a one-loudspeaker table whose lookups are the constant
unit row, at spreads 0 and 3°. -/
theorem spread_energy_nonincreasing_witness :
    energy (spreadGains (fun _ _ => (1 : ℝ) : ℚ × ℚ → Fin 1 → ℝ) (0, 0) 3)
      ≤ energy (spreadGains (fun _ _ => (1 : ℝ) : ℚ × ℚ → Fin 1 → ℝ) (0, 0) 0) :=
  (spread_energy_nonincreasing (fun _ _ => (1 : ℝ)) (fun d => by simp) (0, 0) 0 3
    (by norm_num) (by norm_num)).1

/- ====================================================================== -/
/- C10: rotation-engine representation consistency                         -/
/- ====================================================================== -/

/-- A real Cartesian vector, for the trigonometric rotation model. -/
structure RVec3 where
  x : ℝ
  y : ℝ
  z : ℝ

/-- Squared Euclidean norm. -/
def normSq (v : RVec3) : ℝ := v.x ^ 2 + v.y ^ 2 + v.z ^ 2

/-- Degrees to radians. -/
noncomputable def deg2rad (θ : ℝ) : ℝ := θ * Real.pi / 180

/-- Radians to degrees. -/
noncomputable def rad2deg (θ : ℝ) : ℝ := θ * 180 / Real.pi

/-- The unit Cartesian vector of an (azimuth°, elevation°) pair (SAF
convention: x toward the front, z up). -/
noncomputable def unitCart (azi ele : ℝ) : RVec3 :=
  ⟨Real.cos (deg2rad ele) * Real.cos (deg2rad azi),
   Real.cos (deg2rad ele) * Real.sin (deg2rad azi),
   Real.sin (deg2rad ele)⟩

/-- Rotation about the z axis (yaw). -/
noncomputable def rotZ (θ : ℝ) (v : RVec3) : RVec3 :=
  ⟨Real.cos θ * v.x - Real.sin θ * v.y,
   Real.sin θ * v.x + Real.cos θ * v.y, v.z⟩

/-- Rotation about the y axis (pitch). -/
noncomputable def rotY (θ : ℝ) (v : RVec3) : RVec3 :=
  ⟨Real.cos θ * v.x + Real.sin θ * v.z, v.y,
   - Real.sin θ * v.x + Real.cos θ * v.z⟩

/-- Rotation about the x axis (roll). -/
noncomputable def rotX (θ : ℝ) (v : RVec3) : RVec3 :=
  ⟨v.x, Real.cos θ * v.y - Real.sin θ * v.z,
   Real.sin θ * v.y + Real.cos θ * v.z⟩

/-- Sign flip of an angle controlled by its flip flag. -/
def flipAngle (b : Bool) (θ : ℝ) : ℝ := if b then -θ else θ

/-- Modelled from the spec: the rotation applied to a source vector — the
fixed, documented order yaw (about z), then pitch (about y), then roll
(about x), each angle in degrees and optionally sign-flipped by its flag
(the rotation code is not under `src/`). -/
noncomputable def applyRot (p : RotCfg) (v : RVec3) : RVec3 :=
  rotX (deg2rad (flipAngle p.bFlipRoll (p.roll : ℝ)))
    (rotY (deg2rad (flipAngle p.bFlipPitch (p.pitch : ℝ)))
      (rotZ (deg2rad (flipAngle p.bFlipYaw (p.yaw : ℝ))) v))

/-- Azimuth (degrees) of a Cartesian vector, via the planar argument. -/
noncomputable def cart2azi (v : RVec3) : ℝ := rad2deg (Complex.arg ⟨v.x, v.y⟩)

/-- Elevation (degrees) of a Cartesian vector. -/
noncomputable def cart2ele (v : RVec3) : ℝ := rad2deg (Real.arcsin v.z)

/-- The four stored direction representations of the `_panner` structure
(`src_dirs_deg`, `src_dirs_xyz`, `src_dirs_rot_xyz`, `src_dirs_rot_deg`;
`panner_internal.h`, lines 113–115 and 126). -/
structure SrcDirState where
  src_dirs_deg : List (ℝ × ℝ)
  src_dirs_xyz : List RVec3
  src_dirs_rot_xyz : List RVec3
  src_dirs_rot_deg : List (ℝ × ℝ)

/-- Modelled from the spec: one rotation-engine update — derive the unit
Cartesian vectors of the user directions, rotate them, and take the rotated
vectors' azimuth/elevation. -/
noncomputable def rotationUpdate (p : RotCfg) (dirs : List (ℝ × ℝ)) : SrcDirState :=
  let xyz := dirs.map fun d => unitCart d.1 d.2
  let rxyz := xyz.map (applyRot p)
  ⟨dirs, xyz, rxyz, rxyz.map fun v => (cart2azi v, cart2ele v)⟩

theorem deg2rad_rad2deg (θ : ℝ) : deg2rad (rad2deg θ) = θ := by
  rw [deg2rad, rad2deg]
  field_simp

theorem normSq_unitCart (azi ele : ℝ) : normSq (unitCart azi ele) = 1 := by
  have h1 := Real.sin_sq_add_cos_sq (deg2rad azi)
  have h2 := Real.sin_sq_add_cos_sq (deg2rad ele)
  simp only [normSq, unitCart]
  nlinarith [h1, h2]

theorem normSq_rotZ (θ : ℝ) (v : RVec3) : normSq (rotZ θ v) = normSq v := by
  have h := Real.sin_sq_add_cos_sq θ
  simp only [normSq, rotZ]
  nlinarith [h]

theorem normSq_rotY (θ : ℝ) (v : RVec3) : normSq (rotY θ v) = normSq v := by
  have h := Real.sin_sq_add_cos_sq θ
  simp only [normSq, rotY]
  nlinarith [h]

theorem normSq_rotX (θ : ℝ) (v : RVec3) : normSq (rotX θ v) = normSq v := by
  have h := Real.sin_sq_add_cos_sq θ
  simp only [normSq, rotX]
  nlinarith [h]

theorem normSq_applyRot (p : RotCfg) (v : RVec3) :
    normSq (applyRot p v) = normSq v := by
  rw [applyRot, normSq_rotX, normSq_rotY, normSq_rotZ]

theorem unitCart_of_cart (v : RVec3) (h : normSq v = 1) :
    unitCart (cart2azi v) (cart2ele v) = v := by
  obtain ⟨x, y, z⟩ := v
  rw [normSq] at h
  dsimp only at h
  have hz1 : -1 ≤ z := by nlinarith [sq_nonneg x, sq_nonneg y]
  have hz2 : z ≤ 1 := by nlinarith [sq_nonneg x, sq_nonneg y]
  have hxy : 1 - z ^ 2 = x ^ 2 + y ^ 2 := by linarith
  have hcos : Real.cos (Real.arcsin z) = Complex.abs ⟨x, y⟩ := by
    rw [Real.cos_arcsin, hxy, Complex.abs_apply, Complex.normSq_mk]
    ring_nf
  rw [unitCart, cart2azi, cart2ele]
  dsimp only
  rw [deg2rad_rad2deg, deg2rad_rad2deg]
  by_cases hw : (⟨x, y⟩ : ℂ) = 0
  · have hx : x = 0 := by
      have := congrArg Complex.re hw
      simpa using this
    have hy : y = 0 := by
      have := congrArg Complex.im hw
      simpa using this
    have hc0 : Real.cos (Real.arcsin z) = 0 := by rw [hcos, hw, map_zero]
    rw [hc0, Real.sin_arcsin hz1 hz2]
    simp [RVec3.mk.injEq, hx, hy]
  · have habs : Complex.abs ⟨x, y⟩ ≠ 0 := Complex.abs.ne_zero hw
    rw [hcos, Complex.cos_arg hw, Complex.sin_arg, Real.sin_arcsin hz1 hz2]
    have hre : (⟨x, y⟩ : ℂ).re = x := rfl
    have him : (⟨x, y⟩ : ℂ).im = y := rfl
    rw [hre, him]
    simp only [RVec3.mk.injEq]
    refine ⟨?_, ?_, trivial⟩ <;> field_simp

/-- C10: after every rotation-engine update, the stored representations of
each source direction are mutually consistent: `src_dirs_xyz[i]` is the
unit-length Cartesian vector of `src_dirs_deg[i]`, `src_dirs_rot_xyz[i]` is
the (unit-length) result of applying the yaw/pitch/roll rotation with flips
to it, and `src_dirs_rot_deg[i]` is an azimuth/elevation pair whose unit
Cartesian vector is exactly `src_dirs_rot_xyz[i]`. -/
theorem rotation_update_consistent (p : RotCfg) (dirs : List (ℝ × ℝ)) (i : Nat)
    (hi : i < dirs.length) :
    ((rotationUpdate p dirs).src_dirs_xyz[i]? =
      (dirs[i]?).map fun d => unitCart d.1 d.2) ∧
    (∀ v, (rotationUpdate p dirs).src_dirs_xyz[i]? = some v → normSq v = 1) ∧
    ((rotationUpdate p dirs).src_dirs_rot_xyz[i]? =
      ((rotationUpdate p dirs).src_dirs_xyz[i]?).map (applyRot p)) ∧
    (∀ v, (rotationUpdate p dirs).src_dirs_rot_xyz[i]? = some v → normSq v = 1) ∧
    (∀ d v, (rotationUpdate p dirs).src_dirs_rot_deg[i]? = some d →
      (rotationUpdate p dirs).src_dirs_rot_xyz[i]? = some v →
      unitCart d.1 d.2 = v) := by
  obtain ⟨d0, hd0⟩ : ∃ d0, dirs[i]? = some d0 := ⟨dirs.get ⟨i, hi⟩,
    List.getElem?_eq_getElem hi⟩
  have hxyz : (rotationUpdate p dirs).src_dirs_xyz[i]?
      = some (unitCart d0.1 d0.2) := by
    show (dirs.map fun d => unitCart d.1 d.2)[i]? = _
    rw [List.getElem?_map, hd0]
    rfl
  have hrxyz : (rotationUpdate p dirs).src_dirs_rot_xyz[i]?
      = some (applyRot p (unitCart d0.1 d0.2)) := by
    show ((dirs.map fun d => unitCart d.1 d.2).map (applyRot p))[i]? = _
    rw [List.getElem?_map, List.getElem?_map, hd0]
    rfl
  have hrdeg : (rotationUpdate p dirs).src_dirs_rot_deg[i]?
      = some (cart2azi (applyRot p (unitCart d0.1 d0.2)),
              cart2ele (applyRot p (unitCart d0.1 d0.2))) := by
    show (((dirs.map fun d => unitCart d.1 d.2).map (applyRot p)).map
      fun v => (cart2azi v, cart2ele v))[i]? = _
    rw [List.getElem?_map, List.getElem?_map, List.getElem?_map, hd0]
    rfl
  refine ⟨by rw [hxyz, hd0]; rfl, ?_, by rw [hrxyz, hxyz]; rfl, ?_, ?_⟩
  · intro v hv
    rw [hxyz] at hv
    rw [← Option.some.inj hv]
    exact normSq_unitCart _ _
  · intro v hv
    rw [hrxyz] at hv
    rw [← Option.some.inj hv]
    rw [normSq_applyRot]
    exact normSq_unitCart _ _
  · intro d v hd hv
    rw [hrdeg] at hd
    rw [hrxyz] at hv
    rw [← Option.some.inj hd, ← Option.some.inj hv]
    exact unitCart_of_cart _ (by rw [normSq_applyRot]; exact normSq_unitCart _ _)

/-- Witness for C10: one source at azimuth 30°, elevation 10°, rotated by a
yaw of 90° with the yaw flip set. -/
theorem rotation_update_consistent_witness :
    ((rotationUpdate ⟨90, 0, 0, true, false, false⟩ [(30, 10)]).src_dirs_xyz[0]? =
      (([((30 : ℝ), (10 : ℝ))])[0]?).map fun d => unitCart d.1 d.2) ∧
    (∀ v, (rotationUpdate ⟨90, 0, 0, true, false, false⟩
        [(30, 10)]).src_dirs_xyz[0]? = some v → normSq v = 1) ∧
    ((rotationUpdate ⟨90, 0, 0, true, false, false⟩ [(30, 10)]).src_dirs_rot_xyz[0]? =
      ((rotationUpdate ⟨90, 0, 0, true, false, false⟩
        [(30, 10)]).src_dirs_xyz[0]?).map (applyRot ⟨90, 0, 0, true, false, false⟩)) ∧
    (∀ v, (rotationUpdate ⟨90, 0, 0, true, false, false⟩
        [(30, 10)]).src_dirs_rot_xyz[0]? = some v → normSq v = 1) ∧
    (∀ d v, (rotationUpdate ⟨90, 0, 0, true, false, false⟩
        [(30, 10)]).src_dirs_rot_deg[0]? = some d →
      (rotationUpdate ⟨90, 0, 0, true, false, false⟩
        [(30, 10)]).src_dirs_rot_xyz[0]? = some v →
      unitCart d.1 d.2 = v) :=
  rotation_update_consistent ⟨90, 0, 0, true, false, false⟩ [(30, 10)] 0
    (by norm_num)

end Panner
